import Mathlib

/-!
Verification development for the gcs_antal NATS auth-callout service.

The definitions below are a shallow embedding of the Go sources:
  - internal/auth/authz.go        (AuthorizeToken, isFallbackToCacheError)
  - internal/auth/gitlab.go       (GitLabClient.VerifyTokenInfo, isUnauthorizedError)
  - internal/auth/token_cache_jetstream.go and the token-cache model file
                                   (tokenCacheKey, marshalTokenCacheEntry, Put)
  - the NATS client file           (handleAuthRequest, processPermissionTemplate,
                                    respondMsg)

Go errors are modelled as an inductive chain mirroring the wrapping
structure that the errors package inspects; the external crypto
primitives (SHA-256, HMAC) are implemented concretely; the external
text/template library is modelled restricted to field actions, the only
action form permission subjects use; NATS/JetStream I/O is modelled by
recording the operations the code performs.
-/

namespace GcsAntal

/-! ## Go error model

Errors as seen by the errors package: a chain of nodes.  Constructors
cover the concrete error shapes inspected by authz.go and gitlab.go:
the sentinels ErrInvalidToken and ErrTokenCacheMiss, context deadline
exceeded, generic net.Error values, net.OpError, url.Error wrappers,
gitlab.ErrorResponse carrying an optional HTTP response status, an
fmt.Errorf percent-w wrapper, and opaque errors. -/
inductive GoError where
  | invalidToken
  | tokenCacheMiss
  | deadlineExceeded
  | netErr (isTimeout isTemporary : Bool)
  | opErr (isTimeout isTemporary : Bool)
  | urlErr (isTimeout isTemporary : Bool) (inner : GoError)
  | gitlabErr (respStatus : Option Nat)
  | wrapped (inner : GoError)
  | simple (msg : String)
deriving DecidableEq, Repr

/-- Model of errors.Is: compare each node of the Unwrap chain with the
target sentinel.  Unwrap descends through fmt.Errorf wrappers and
url.Error (which has an Unwrap method); the other nodes do not unwrap. -/
def errorsIs : GoError → GoError → Bool
  | e, target =>
    (e = target) ||
      match e with
      | .wrapped inner => errorsIs inner target
      | .urlErr _ _ inner => errorsIs inner target
      | _ => false

/-- Model of errors.As for the net.Error interface: the first node of the
chain implementing net.Error, returning its Timeout and Temporary values.
net.Error is implemented by generic net errors, net.OpError, url.Error
and context.DeadlineExceeded. -/
def asNetError : GoError → Option (Bool × Bool)
  | .netErr t p => some (t, p)
  | .opErr t p => some (t, p)
  | .urlErr t p _ => some (t, p)
  | .deadlineExceeded => some (true, true)
  | .wrapped inner => asNetError inner
  | _ => none

/-- Model of errors.As for the concrete type star-url.Error: the first
url.Error node of the chain, with its Timeout and Temporary values and
its wrapped inner error. -/
def asUrlError : GoError → Option (Bool × Bool × GoError)
  | .urlErr t p inner => some (t, p, inner)
  | .wrapped inner => asUrlError inner
  | _ => none

/-- Model of errors.As for the concrete type star-net.OpError. -/
def asOpError : GoError → Option (Bool × Bool)
  | .opErr t p => some (t, p)
  | .wrapped inner => asOpError inner
  | .urlErr _ _ inner => asOpError inner
  | _ => none

/-- Model of errors.As for star-gitlab.ErrorResponse: first such node,
yielding its optional HTTP response status (none models a nil Response). -/
def asGitlabError : GoError → Option (Option Nat)
  | .gitlabErr st => some st
  | .wrapped inner => asGitlabError inner
  | .urlErr _ _ inner => asGitlabError inner
  | _ => none

/-- Embedding of statusCodeFromGitLabError in authz.go: the status code of
the first gitlab.ErrorResponse in the chain whose Response is non-nil. -/
def statusCodeFromGitLabError (e : GoError) : Option Nat :=
  match asGitlabError e with
  | some (some code) => some code
  | _ => none

/-- Embedding of isFallbackToCacheError in authz.go, translated check by
check in source order. -/
def isFallbackToCacheError (err : GoError) : Bool :=
  if errorsIs err GoError.deadlineExceeded then true
  else if (match asNetError err with
           | some (t, p) => t || p
           | none => false) then true
  else if (match asUrlError err with
           | some (t, p, _) => t || (t || p)
           | none => false) then true
  else if (asOpError err).isSome then true
  else
    match statusCodeFromGitLabError err with
    | some code => decide (500 ≤ code)
    | none => false

/-- Embedding of isUnauthorizedError in gitlab.go: errors.As for
gitlab.ErrorResponse, then StatusCode equals 401.  The Go code reads
Response.StatusCode without a nil check; a nil Response is modelled as
status 0 (that path is never reached by the claims). -/
def isUnauthorizedError (e : GoError) : Bool :=
  match asGitlabError e with
  | some st => st.getD 0 = 401
  | none => false

/-! ## Authorization engine (authz.go) -/

/-- VerifiedToken as returned by GitLabClient.VerifyTokenInfo. -/
structure VerifiedToken where
  username : String
  scopes : List String
deriving DecidableEq, Repr

/-- TokenCacheEntry, the value stored in JetStream KV. -/
structure TokenCacheEntry where
  username : String
  scopes : String
  lastVerifiedAt : String
deriving DecidableEq, Repr

/-- One cache operation performed by AuthorizeToken, recorded for
observability of the flow: a Get or a Put with its arguments. -/
inductive CacheOp where
  | get (token : String)
  | put (token : String) (entry : TokenCacheEntry)
deriving DecidableEq, Repr

/-- Behaviour of a TokenCache as AuthorizeToken observes it: the result of
Get for each token (an entry, or an error such as ErrTokenCacheMiss), and
the result of Put (none on success, an error otherwise). -/
structure CacheModel where
  getResult : String → Except GoError TokenCacheEntry
  putResult : String → TokenCacheEntry → Option GoError

/-- AuthorizeResult from authz.go. -/
structure AuthorizeResult where
  allow : Bool := false
  fromCache : Bool := false
  verified : Option VerifiedToken := none
  cacheWriteErr : Option GoError := none
deriving DecidableEq, Repr

/-- The cache entry AuthorizeToken writes on a successful verification:
the verified username, the comma-joined scopes and the formatted
verification time; the token itself is not a field. -/
def mkCacheEntry (vt : VerifiedToken) (nowStr : String) : TokenCacheEntry :=
  { username := vt.username
    scopes := String.intercalate "," vt.scopes
    lastVerifiedAt := nowStr }

/-- Embedding of AuthorizeToken in authz.go.  The GitLab verifier is the
function argument verify; the cache argument is none when the cache is nil.
The formatted now().UTC().Format(RFC3339) timestamp is passed as the
string nowStr.  In addition to the result and error, the list of cache
operations performed is returned, in order. -/
def AuthorizeToken (token : String) (verify : String → Except GoError VerifiedToken)
    (cache : Option CacheModel) (nowStr : String) :
    AuthorizeResult × Option GoError × List CacheOp :=
  match verify token with
  | .ok vt =>
    match cache with
    | none => ({ allow := true, verified := some vt }, none, [])
    | some c =>
      let entry : TokenCacheEntry := mkCacheEntry vt nowStr
      match c.putResult token entry with
      | none => ({ allow := true, verified := some vt }, none, [CacheOp.put token entry])
      | some e =>
        ({ allow := true, verified := some vt, cacheWriteErr := some e }, none,
          [CacheOp.put token entry])
  | .error err =>
    if errorsIs err GoError.invalidToken then
      ({ allow := false }, none, [])
    else
      match cache with
      | some c =>
        if isFallbackToCacheError err then
          match c.getResult token with
          | .ok _ => ({ allow := true, fromCache := true }, none, [CacheOp.get token])
          | .error cErr =>
            if errorsIs cErr GoError.tokenCacheMiss then
              ({ allow := false }, none, [CacheOp.get token])
            else
              ({ allow := false }, some cErr, [CacheOp.get token])
        else
          ({ allow := false }, some err, [])
      | none => ({ allow := false }, some err, [])

/-! ## SHA-256, HMAC-SHA256, hex encoding (crypto/sha256, crypto/hmac,
encoding/hex as used by tokenCacheKey)

Bytes are Nat values below 256; 32-bit words are Nat values reduced
modulo 2 to the 32. -/

/-- Reduce modulo 2 to the 32. -/
def w32 (n : Nat) : Nat := n % 4294967296

/-- Right rotation of a 32-bit word by n bits. -/
def rotr32 (n x : Nat) : Nat :=
  w32 ((x >>> n) ||| (x <<< (32 - n)))

/-- Bitwise complement within 32 bits. -/
def not32 (x : Nat) : Nat := x ^^^ 4294967295

/-- Concatenation-map over a list, used instead of relying on a library
flatMap name. -/
def catMap (f : α → List β) : List α → List β
  | [] => []
  | a :: l => f a ++ catMap f l

/-- Big-endian bytes (4) of a 32-bit word. -/
def be4 (n : Nat) : List Nat :=
  [n / 16777216 % 256, n / 65536 % 256, n / 256 % 256, n % 256]

/-- Big-endian bytes (8) of a 64-bit length field. -/
def be8 (n : Nat) : List Nat :=
  [n / 72057594037927936 % 256, n / 281474976710656 % 256,
   n / 1099511627776 % 256, n / 4294967296 % 256] ++ be4 (n % 4294967296)

/-- Big-endian 32-bit words from a byte list. -/
def toWords : List Nat → List Nat
  | a :: b :: c :: d :: rest => (((a * 256 + b) * 256 + c) * 256 + d) :: toWords rest
  | _ => []

/-- SHA-256 message padding: append 0x80, zeros to 56 mod 64, then the
bit length as 8 big-endian bytes. -/
def sha256Pad (msg : List Nat) : List Nat :=
  let z := (64 + 56 - ((msg.length + 1) % 64)) % 64
  msg ++ 128 :: List.replicate z 0 ++ be8 (8 * msg.length)

/-- Split into 64-byte blocks; the fuel argument bounds the recursion and
is instantiated with the list length, which always suffices. -/
def chunks64F : Nat → List Nat → List (List Nat)
  | 0, _ => []
  | _, [] => []
  | fuel + 1, l => l.take 64 :: chunks64F fuel (l.drop 64)

def chunks64 (l : List Nat) : List (List Nat) := chunks64F l.length l

/-- SHA-256 round constants of FIPS 180-4, written in decimal. -/
def sha256K : List Nat :=
  [1116352408, 1899447441, 3049323471, 3921009573, 961987163,
   1508970993, 2453635748, 2870763221, 3624381080, 310598401,
   607225278, 1426881987, 1925078388, 2162078206, 2614888103,
   3248222580, 3835390401, 4022224774, 264347078, 604807628,
   770255983, 1249150122, 1555081692, 1996064986, 2554220882,
   2821834349, 2952996808, 3210313671, 3336571891, 3584528711,
   113926993, 338241895, 666307205, 773529912, 1294757372,
   1396182291, 1695183700, 1986661051, 2177026350, 2456956037,
   2730485921, 2820302411, 3259730800, 3345764771, 3516065817,
   3600352804, 4094571909, 275423344, 430227734, 506948616,
   659060556, 883997877, 958139571, 1322822218, 1537002063,
   1747873779, 1955562222, 2024104815, 2227730452, 2361852424,
   2428436474, 2756734187, 3204031479, 3329325298]

/-- SHA-256 initial hash value of FIPS 180-4, written in decimal. -/
def sha256H0 : List Nat :=
  [1779033703, 3144134277, 1013904242, 2773480762,
   1359893119, 2600822924, 528734635, 1541459225]

/-- SHA-256 message schedule: 64 words from one 64-byte block. -/
def sha256Schedule (block : List Nat) : Array Nat :=
  let w0 := (toWords block).toArray
  (List.range 48).foldl
    (fun w i =>
      let t := i + 16
      let x15 := w.getD (t - 15) 0
      let x2 := w.getD (t - 2) 0
      let s0 := (rotr32 7 x15) ^^^ (rotr32 18 x15) ^^^ (x15 >>> 3)
      let s1 := (rotr32 17 x2) ^^^ (rotr32 19 x2) ^^^ (x2 >>> 10)
      w.push (w32 (w.getD (t - 16) 0 + s0 + w.getD (t - 7) 0 + s1)))
    w0

/-- One SHA-256 block compression. -/
def sha256Compress (hs : List Nat) (block : List Nat) : List Nat :=
  let w := sha256Schedule block
  let k := sha256K.toArray
  let fin := (List.range 64).foldl
    (fun st i =>
      match st with
      | [a, b, c, d, e, f, g, h] =>
        let s1 := (rotr32 6 e) ^^^ (rotr32 11 e) ^^^ (rotr32 25 e)
        let ch := (e &&& f) ^^^ ((not32 e) &&& g)
        let t1 := w32 (h + s1 + ch + k.getD i 0 + w.getD i 0)
        let s0 := (rotr32 2 a) ^^^ (rotr32 13 a) ^^^ (rotr32 22 a)
        let mj := (a &&& b) ^^^ (a &&& c) ^^^ (b &&& c)
        let t2 := w32 (s0 + mj)
        [w32 (t1 + t2), a, b, c, w32 (d + t1), e, f, g]
      | other => other)
    hs
  List.zipWith (fun x y => w32 (x + y)) hs fin

/-- SHA-256 digest of a byte list, as 32 bytes. -/
def sha256 (msg : List Nat) : List Nat :=
  catMap be4 ((chunks64 (sha256Pad msg)).foldl sha256Compress sha256H0)

/-- HMAC-SHA256 per RFC 2104 as implemented by crypto/hmac: block size 64,
long keys hashed first, inner pad 0x36, outer pad 0x5c. -/
def hmacSha256 (key msg : List Nat) : List Nat :=
  let k0 := if 64 < key.length then sha256 key else key
  let kp := k0 ++ List.replicate (64 - k0.length) 0
  let ikp := kp.map (fun b => b ^^^ 54)
  let okp := kp.map (fun b => b ^^^ 92)
  sha256 (okp ++ sha256 (ikp ++ msg))

/-- Lowercase hex digit. -/
def hexDigit (n : Nat) : Char :=
  if n < 10 then Char.ofNat (48 + n) else Char.ofNat (87 + n)

/-- Lowercase hex encoding of a byte list (encoding/hex). -/
def hexEncode (bs : List Nat) : String :=
  String.mk (catMap (fun b => [hexDigit (b / 16), hexDigit (b % 16)]) bs)

/-- UTF-8 bytes of a character, matching the byte view Go takes of a
string. -/
def charUtf8 (c : Char) : List Nat :=
  let n := c.toNat
  if n < 128 then [n]
  else if n < 2048 then [192 + n / 64, 128 + n % 64]
  else if n < 65536 then [224 + n / 4096, 128 + n / 64 % 64, 128 + n % 64]
  else [240 + n / 262144, 128 + n / 4096 % 64, 128 + n / 64 % 64, 128 + n % 64]

/-- Byte view of a string, matching the Go byte-slice conversion. -/
def strBytes (s : String) : List Nat := catMap charUtf8 s.data

/-! ## Token cache key and entry serialization
(token_cache_jetstream.go and the token-cache model file) -/

/-- Hex digits of a byte, used by the JSON unicode escape. -/
def hex2 (n : Nat) : String := String.mk [hexDigit (n / 16), hexDigit (n % 16)]

/-- Escaping of one character by encoding/json (HTML escaping on, as with
json.Marshal): quote, backslash, newline, carriage return and tab get
two-character escapes, other control characters and the HTML characters
get unicode escapes, as do U+2028 and U+2029. -/
def jsonEscapeChar (c : Char) : String :=
  if c = Char.ofNat 34 then "\\\""
  else if c = Char.ofNat 92 then "\\\\"
  else if c = Char.ofNat 10 then "\\n"
  else if c = Char.ofNat 13 then "\\r"
  else if c = Char.ofNat 9 then "\\t"
  else if c = Char.ofNat 60 then "\\u003c"
  else if c = Char.ofNat 62 then "\\u003e"
  else if c = Char.ofNat 38 then "\\u0026"
  else if c.toNat < 32 then "\\u00" ++ hex2 c.toNat
  else if c.toNat = 8232 then "\\u2028"
  else if c.toNat = 8233 then "\\u2029"
  else String.mk [c]

/-- JSON string escaping of a whole string. -/
def jsonEscape (s : String) : String :=
  String.join (s.data.map jsonEscapeChar)

/-- A JSON string literal: quotes around the escaped content. -/
def jsonStr (s : String) : String := "\"" ++ jsonEscape s ++ "\""

/-- Embedding of marshalTokenCacheEntry: json.Marshal of TokenCacheEntry,
an object with exactly the keys username, scopes and last_verified_at in
struct order.  json.Marshal cannot fail on this struct, so the error
return is omitted. -/
def marshalTokenCacheEntry (entry : TokenCacheEntry) : String :=
  "\x7b" ++ jsonStr "username" ++ ":" ++ jsonStr entry.username ++
  "," ++ jsonStr "scopes" ++ ":" ++ jsonStr entry.scopes ++
  "," ++ jsonStr "last_verified_at" ++ ":" ++ jsonStr entry.lastVerifiedAt ++ "\x7d"

/-- Embedding of tokenCacheKey: reject the empty token with
ErrInvalidToken, reject an empty secret, otherwise the hex-encoded
HMAC-SHA256 of the token under the secret. -/
def tokenCacheKey (token : String) (secret : List Nat) : Except GoError String :=
  if token = "" then .error GoError.invalidToken
  else if secret = [] then .error (GoError.simple "token cache hmac_secret is empty")
  else .ok (hexEncode (hmacSha256 secret (strBytes token)))

/-- Embedding of JetStreamTokenCache.Put restricted to the data it hands
to the KV store: the derived key and the marshalled entry; on a key
derivation error that error is returned and nothing is stored. -/
def jetStreamPutStored (secret : List Nat) (token : String) (entry : TokenCacheEntry) :
    Except GoError (String × String) :=
  match tokenCacheKey token secret with
  | .error e => .error e
  | .ok key => .ok (key, marshalTokenCacheEntry entry)

/-! ## GitLab verifier with retries (gitlab.go, VerifyTokenInfo) -/

/-- GitLabClient configuration fields used by VerifyTokenInfo; durations
are kept as the configured second counts. -/
structure GitLabClientCfg where
  timeout : Nat
  retries : Nat
  retryDelaySeconds : Nat
deriving DecidableEq, Repr

/-- The user value returned by the CurrentUser endpoint. -/
structure GitLabUser where
  username : String
deriving DecidableEq, Repr

/-- The personal-access-token value returned by
GetSinglePersonalAccessToken. -/
structure PatInfo where
  scopes : List String
deriving DecidableEq, Repr

/-- What the GitLab API does on one attempt: the CurrentUser call result
(the user may be nil) and the PAT call result (consulted only when
CurrentUser succeeded; the token value may be nil). -/
structure AttemptBehavior where
  currentUser : Except GoError (Option GitLabUser)
  pat : Except GoError (Option PatInfo)

/-- Externally visible events of the retry loop: creation of a fresh
per-attempt context with its timeout, and a sleep of the configured
delay between attempts. -/
inductive GLEvent where
  | ctx (timeoutSec : Nat)
  | sleep (delaySec : Nat)
deriving DecidableEq, Repr

/-- Outcome of a successful CurrentUser call: the nil-user and
empty-username checks, then the verified token with the scopes gathered
from the PAT call. -/
def finishUser (userOpt : Option GitLabUser) (scopes : List String) :
    Except GoError VerifiedToken :=
  match userOpt with
  | none => .error GoError.invalidToken
  | some u =>
    if u.username = "" then .error GoError.invalidToken
    else .ok { username := u.username, scopes := scopes }

/-- Scopes taken from the PAT call result: the scopes of the token when a
token was returned, otherwise the nil slice. -/
def patScopes : Option PatInfo → List String
  | some p => p.scopes
  | none => []

/-- The retry loop of VerifyTokenInfo.  The api argument gives the
behaviour of attempt number n; fuel is the number of attempts remaining,
instantiated with retries + 1.  Each attempt records a fresh-context
event; a retry records a sleep event before the next attempt.  An
unauthorized (401) CurrentUser or PAT result returns ErrInvalidToken at
once; a retryable error on the final attempt is returned wrapped. -/
def verifyAttempts (c : GitLabClientCfg) (api : Nat → AttemptBehavior) :
    Nat → Nat → Except GoError VerifiedToken × List GLEvent
  | _, 0 => (.error (GoError.simple "error calling GitLab API"), [])
  | attempt, fuel + 1 =>
    let b := api attempt
    match b.currentUser with
    | .ok userOpt =>
      match b.pat with
      | .ok patOpt =>
        (finishUser userOpt (patScopes patOpt), [GLEvent.ctx c.timeout])
      | .error patErr =>
        if isUnauthorizedError patErr then
          (.error GoError.invalidToken, [GLEvent.ctx c.timeout])
        else
          (finishUser userOpt [], [GLEvent.ctx c.timeout])
    | .error e =>
      if isUnauthorizedError e then
        (.error GoError.invalidToken, [GLEvent.ctx c.timeout])
      else if fuel = 0 then
        (.error (GoError.wrapped e), [GLEvent.ctx c.timeout])
      else
        let rest := verifyAttempts c api (attempt + 1) fuel
        (rest.1, GLEvent.ctx c.timeout :: GLEvent.sleep c.retryDelaySeconds :: rest.2)

/-- Embedding of GitLabClient.VerifyTokenInfo: the empty-token fast path,
the gitlab.NewClient construction (whose possible failure is the
newClientErr argument), then the retry loop with retries + 1 attempts. -/
def VerifyTokenInfo (c : GitLabClientCfg) (newClientErr : Option GoError)
    (api : Nat → AttemptBehavior) (token : String) :
    Except GoError VerifiedToken × List GLEvent :=
  if token = "" then (.error GoError.invalidToken, [])
  else
    match newClientErr with
    | some e => (.error (GoError.wrapped e), [])
    | none => verifyAttempts c api 0 (c.retries + 1)

/-- Number of fresh-context events, i.e. of verification attempts made. -/
def countCtx (evs : List GLEvent) : Nat :=
  (evs.filter (fun ev => match ev with
    | .ctx _ => true
    | _ => false)).length

/-- Number of sleep events. -/
def countSleep (evs : List GLEvent) : Nat :=
  (evs.filter (fun ev => match ev with
    | .sleep _ => true
    | _ => false)).length

/-! ## Permission template engine (processPermissionTemplate)

Model of the external text/template library restricted to the action
form permission subjects use: literal text and field actions of shape
two-left-braces dot Name two-right-braces.  Any other action is a parse
error; executing a field other than Username is an execution error —
matching text/template on the TemplateData struct of the source, which
has the single field Username. -/

/-- The left and right brace characters. -/
def lbr : Char := Char.ofNat 123
def rbr : Char := Char.ofNat 125

/-- A parsed template node: literal text or a field action. -/
inductive TmplNode where
  | text (chars : List Char)
  | field (name : String)
deriving DecidableEq, Repr

/-- Scan to the first action opener (two left braces): the text before
it, and the remainder after it when present. -/
def findOpen : List Char → List Char × Option (List Char)
  | [] => ([], none)
  | [c] => ([c], none)
  | c :: c2 :: rest =>
    if c = lbr && c2 = lbr then ([], some rest)
    else
      let r := findOpen (c2 :: rest)
      (c :: r.1, r.2)

/-- Scan to the action closer (two right braces): the action content and
the remainder, or none when the action is unterminated. -/
def findClose : List Char → Option (List Char × List Char)
  | [] => none
  | [_] => none
  | c :: c2 :: rest =>
    if c = rbr && c2 = rbr then some ([], rest)
    else (findClose (c2 :: rest)).map (fun p => (c :: p.1, p.2))

/-- Characters allowed after the dot of a field action: identifier
characters and further dots (a chain). -/
def fieldChar (c : Char) : Bool :=
  c.isAlphanum || c = Char.ofNat 95 || c = Char.ofNat 46

/-- Parse one action body: optional surrounding spaces, then a dot
followed by a nonempty field chain; anything else is a parse error. -/
def parseActionField (act : List Char) : Except String String :=
  let t := (act.dropWhile (fun c => c = Char.ofNat 32)).reverse
    |>.dropWhile (fun c => c = Char.ofNat 32) |>.reverse
  match t with
  | c :: rest =>
    if c = Char.ofNat 46 && rest ≠ [] && rest.all fieldChar then
      .ok (String.mk rest)
    else .error "bad action"
  | [] => .error "empty action"

/-- Template parser over a fuel bound; the fuel is instantiated with one
more than the input length, which always suffices since each recursive
step consumes the two-character opener. -/
def parseTmplF : Nat → List Char → Except String (List TmplNode)
  | 0, _ => .error "fuel exhausted"
  | fuel + 1, l =>
    match findOpen l with
    | (txt, none) => .ok [TmplNode.text txt]
    | (txt, some rest) =>
      match findClose rest with
      | none => .error "unclosed action"
      | some (act, rest2) =>
        match parseActionField act with
        | .error e => .error e
        | .ok name =>
          match parseTmplF fuel rest2 with
          | .error e => .error e
          | .ok nodes => .ok (TmplNode.text txt :: TmplNode.field name :: nodes)

def parseTmpl (l : List Char) : Except String (List TmplNode) :=
  parseTmplF (l.length + 1) l

/-- Template execution against the TemplateData struct: text nodes are
emitted, the Username field yields the username, any other field fails
as text/template does on a missing field. -/
def execTmpl : List TmplNode → String → Except String String
  | [], _ => .ok ""
  | TmplNode.text t :: rest, u => (execTmpl rest u).map (fun s => String.mk t ++ s)
  | TmplNode.field n :: rest, u =>
    if n = "Username" then (execTmpl rest u).map (fun s => u ++ s)
    else .error ("field not found: " ++ n)

/-- Embedding of NATSClient.processPermissionTemplate: parse the subject
as a template; on a parse error return the original subject; execute
with the username; on an execution error return the original subject;
otherwise return the rendered result. -/
def processPermissionTemplate (subjectTemplate : String) (username : String) : String :=
  match parseTmpl subjectTemplate.data with
  | .error _ => subjectTemplate
  | .ok nodes =>
    match execTmpl nodes username with
    | .error _ => subjectTemplate
    | .ok s => s

/-- True when the string contains the two-left-brace action opener. -/
def hasActionOpen (s : String) : Bool := (findOpen s.data).2.isSome

/-! ## NATS auth-callout handler (handleAuthRequest, respondMsg)

The jwt library calls (DecodeAuthorizationRequestClaims, claim
validation, Encode), the nkeys keypair generation and the publish are
external; each is passed in as a behaviour argument, and the handler
model returns the messages it publishes together with the user claims it
built, for inspection. -/

/-- The fields of the decoded authorization request that
handleAuthRequest reads. -/
structure AuthRequestClaims where
  userNkey : String
  serverId : String
  connectUsername : String
  connectPassword : String
deriving DecidableEq, Repr

/-- Configured permission template lists
(nats.permissions.publish and nats.permissions.subscribe). -/
structure PermConfig where
  pubAllow : List String := []
  pubDeny : List String := []
  subAllow : List String := []
  subDeny : List String := []
deriving DecidableEq, Repr

/-- The permission lists of the user claims. -/
structure Permissions where
  pubAllow : List String := []
  pubDeny : List String := []
  subAllow : List String := []
  subDeny : List String := []
deriving DecidableEq, Repr

/-- The user claims built on the allow path. -/
structure UserClaims where
  subject : String
  name : String
  audience : String
  perms : Permissions
deriving DecidableEq, Repr

/-- The authorization response claims handed to Encode by respondMsg. -/
structure ResponseClaims where
  subject : String
  audience : String
  errMsg : String
  userJwt : String
deriving DecidableEq, Repr

/-- A message published on the NATS connection. -/
structure PublishedMsg where
  subject : String
  data : String
deriving DecidableEq, Repr

/-- External behaviours of the handler: request decoding, claim
validation, user-claim signing, throwaway keypair generation and
response signing. -/
structure HandlerDeps where
  decode : String → Except GoError AuthRequestClaims
  validate : UserClaims → List String
  encodeUser : UserClaims → Except GoError String
  genUserKey : Except GoError String
  encodeResponse : ResponseClaims → Except GoError String

/-- Embedding of jwt.StringList.Add: append the value unless already
present. -/
def stringListAdd (l : List String) (s : String) : List String :=
  if l.contains s then l else l ++ [s]

/-- One permission list of the user claims: each configured subject run
through processPermissionTemplate with the username, added in order. -/
def buildPermList (cfgList : List String) (username : String) : List String :=
  cfgList.foldl (fun acc subj => stringListAdd acc (processPermissionTemplate subj username)) []

/-- All four permission lists. -/
def buildPermissions (cfg : PermConfig) (username : String) : Permissions :=
  { pubAllow := buildPermList cfg.pubAllow username
    pubDeny := buildPermList cfg.pubDeny username
    subAllow := buildPermList cfg.subAllow username
    subDeny := buildPermList cfg.subDeny username }

/-- Embedding of NATSClient.respondMsg: when the user nkey is empty or
does not start with U, a throwaway user keypair is generated and its
public key used; on keypair or signing failure nothing is published;
otherwise the signed response claims are published to the reply
subject. -/
def respondMsg (d : HandlerDeps) (replySubject userNkey serverId userJwt errMsg : String) :
    List PublishedMsg :=
  let key : Except GoError String :=
    if userNkey = "" || !userNkey.startsWith "U" then d.genUserKey else .ok userNkey
  match key with
  | .error _ => []
  | .ok k =>
    let rc : ResponseClaims :=
      { subject := k
        audience := if serverId ≠ "" then serverId else ""
        errMsg := errMsg
        userJwt := userJwt }
    match d.encodeResponse rc with
    | .error _ => []
    | .ok token => [{ subject := replySubject, data := token }]

/-- Observable outcome of the handler: the published responses and the
user claims built on the allow path when reached. -/
structure HandleResult where
  published : List PublishedMsg
  userClaims : Option UserClaims
deriving DecidableEq, Repr

/-- Embedding of NATSClient.handleAuthRequest: decode the payload (on
failure respond with empty identifiers and the generic invalid request
format error), authorize the connect password as token (on an
authorization error respond with authentication error; on deny respond
with invalid credentials), then build user claims whose name is the
connect username and whose permissions come from the configured
templates expanded with the connect username, validate, sign and
publish. -/
def handleAuthRequest (d : HandlerDeps) (verify : String → Except GoError VerifiedToken)
    (cache : Option CacheModel) (nowStr : String) (cfg : PermConfig) (audienceCfg : String)
    (replySubject payload : String) : HandleResult :=
  match d.decode payload with
  | .error _ =>
    { published := respondMsg d replySubject "" "" "" "invalid request format"
      userClaims := none }
  | .ok rc =>
    let userNkey := rc.userNkey
    let serverId := rc.serverId
    let username := rc.connectUsername
    let token := rc.connectPassword
    let r := AuthorizeToken token verify cache nowStr
    match r.2.1 with
    | some _ =>
      { published := respondMsg d replySubject userNkey serverId "" "authentication error"
        userClaims := none }
    | none =>
      if !r.1.allow then
        { published := respondMsg d replySubject userNkey serverId "" "invalid credentials"
          userClaims := none }
      else
        let uc : UserClaims :=
          { subject := userNkey
            name := username
            audience := audienceCfg
            perms := buildPermissions cfg username }
        if d.validate uc ≠ [] then
          { published := respondMsg d replySubject userNkey serverId ""
              "error validating claims"
            userClaims := some uc }
        else
          match d.encodeUser uc with
          | .error _ =>
            { published := respondMsg d replySubject userNkey serverId ""
                "error encoding user JWT"
              userClaims := some uc }
          | .ok userJwt =>
            { published := respondMsg d replySubject userNkey serverId userJwt ""
              userClaims := some uc }

/-! ## Helper lemmas on error classification -/

/-- Transient failure classes named by the spec: deadline exceeded, a
network error reporting timeout or temporary (including net.OpError),
and a provider HTTP status of at least 500. -/
def claimTransientError (e : GoError) : Bool :=
  match e with
  | .deadlineExceeded => true
  | .netErr t p => t || p
  | .opErr t p => t || p
  | .gitlabErr (some s) => decide (500 ≤ s)
  | _ => false

/-- A transient-class error never matches the ErrInvalidToken sentinel. -/
theorem transient_not_invalid (e : GoError) (ht : claimTransientError e = true) :
    errorsIs e GoError.invalidToken = false := by
  cases e <;> simp_all [claimTransientError, errorsIs]

/-- A transient-class error is classified for cache fallback by
isFallbackToCacheError. -/
theorem transient_is_fallback (e : GoError) (ht : claimTransientError e = true) :
    isFallbackToCacheError e = true := by
  cases e with
  | deadlineExceeded => decide
  | netErr t p =>
    simp only [claimTransientError] at ht
    simp [isFallbackToCacheError, errorsIs, asNetError, ht]
  | opErr t p =>
    simp only [claimTransientError] at ht
    simp [isFallbackToCacheError, errorsIs, asNetError, ht]
  | gitlabErr st =>
    match st with
    | some s =>
      simp only [claimTransientError] at ht
      simp [isFallbackToCacheError, errorsIs, asNetError, asUrlError, asOpError,
        statusCodeFromGitLabError, asGitlabError, ht]
    | none => simp [claimTransientError] at ht
  | invalidToken => simp [claimTransientError] at ht
  | tokenCacheMiss => simp [claimTransientError] at ht
  | urlErr t p inner => simp [claimTransientError] at ht
  | wrapped inner => simp [claimTransientError] at ht
  | simple m => simp [claimTransientError] at ht

/-! ## Claim theorems -/

/-- C1: when the verifier reports the explicit invalid-token error
(ErrInvalidToken, possibly wrapped), AuthorizeToken denies with a nil
error and performs no cache operation at all, whatever the cache holds. -/
theorem authorize_invalid_token_denies_without_cache
    (token : String) (verify : String → Except GoError VerifiedToken)
    (cache : Option CacheModel) (nowStr : String) (e : GoError)
    (hv : verify token = .error e) (hinv : errorsIs e GoError.invalidToken = true) :
    AuthorizeToken token verify cache nowStr = ({ allow := false }, none, []) := by
  unfold AuthorizeToken
  rw [hv]
  simp [hinv]

/-- Witness for C1 at a concrete denied token with a cache that does hold
an entry for it: the decision is deny with no cache operation. -/
theorem authorize_invalid_token_denies_without_cache_witness :
    ((fun (_ : String) => (Except.error GoError.invalidToken : Except GoError VerifiedToken)) "t"
        = Except.error GoError.invalidToken) ∧
    errorsIs GoError.invalidToken GoError.invalidToken = true ∧
    AuthorizeToken "t" (fun _ => Except.error GoError.invalidToken)
      (some { getResult := fun _ => Except.ok ⟨"bob", "api", "2024-01-01T00:00:00Z"⟩,
              putResult := fun _ _ => none }) "2024-01-02T00:00:00Z" =
      ({ allow := false }, none, []) :=
  ⟨rfl, by decide,
    authorize_invalid_token_denies_without_cache _ _ _ _ _ rfl (by decide)⟩

/-- C2: when the verifier succeeds and a cache is configured,
AuthorizeToken allows with the verified principal and a nil error, and
performs exactly one cache Put of the derived entry; a Put failure is
surfaced only in the soft cacheWriteErr field and does not change the
decision. -/
theorem authorize_success_allows_single_put
    (token : String) (verify : String → Except GoError VerifiedToken)
    (c : CacheModel) (nowStr : String) (vt : VerifiedToken)
    (hv : verify token = .ok vt) :
    AuthorizeToken token verify (some c) nowStr =
      ({ allow := true, verified := some vt,
         cacheWriteErr := c.putResult token (mkCacheEntry vt nowStr) }, none,
       [CacheOp.put token (mkCacheEntry vt nowStr)]) := by
  unfold AuthorizeToken
  rw [hv]
  cases h : c.putResult token (mkCacheEntry vt nowStr) <;> simp [h]

/-- Witness for C2 at a concrete verified token, with a cache whose Put
fails: the decision is still allow with the Put error in cacheWriteErr
and exactly one Put performed. -/
theorem authorize_success_allows_single_put_witness :
    ((fun (_ : String) =>
        (Except.ok (⟨"bob", ["api"]⟩ : VerifiedToken) : Except GoError VerifiedToken)) "t"
      = Except.ok (⟨"bob", ["api"]⟩ : VerifiedToken)) ∧
    AuthorizeToken "t" (fun _ => Except.ok (⟨"bob", ["api"]⟩ : VerifiedToken))
      (some { getResult := fun _ => Except.error GoError.tokenCacheMiss,
              putResult := fun _ _ => some (GoError.simple "kv down") }) "2024-01-02T00:00:00Z" =
      ({ allow := true, verified := some ⟨"bob", ["api"]⟩,
         cacheWriteErr := some (GoError.simple "kv down") }, none,
       [CacheOp.put "t" (mkCacheEntry ⟨"bob", ["api"]⟩ "2024-01-02T00:00:00Z")]) :=
  ⟨rfl, authorize_success_allows_single_put _ _ _ _ _ rfl⟩

/-- C3: when the verifier fails with a transient-class error (deadline
exceeded, network timeout or temporary error, or provider status at
least 500) and a cache is configured, the error is classified for
fallback, the cache is consulted by exactly one Get and no Put, a hit
yields allow from cache with no principal and a nil error, a miss yields
deny with a nil error, and any other cache error yields deny with that
error propagated. -/
theorem authorize_transient_error_cache_fallback
    (token : String) (verify : String → Except GoError VerifiedToken)
    (c : CacheModel) (nowStr : String) (e : GoError)
    (hv : verify token = .error e) (ht : claimTransientError e = true) :
    isFallbackToCacheError e = true ∧
    (AuthorizeToken token verify (some c) nowStr).2.2 = [CacheOp.get token] ∧
    (∀ entry, c.getResult token = .ok entry →
      AuthorizeToken token verify (some c) nowStr =
        ({ allow := true, fromCache := true }, none, [CacheOp.get token])) ∧
    (∀ cErr, c.getResult token = .error cErr →
      errorsIs cErr GoError.tokenCacheMiss = true →
      AuthorizeToken token verify (some c) nowStr =
        ({ allow := false }, none, [CacheOp.get token])) ∧
    (∀ cErr, c.getResult token = .error cErr →
      errorsIs cErr GoError.tokenCacheMiss = false →
      AuthorizeToken token verify (some c) nowStr =
        ({ allow := false }, some cErr, [CacheOp.get token])) := by
  have hni := transient_not_invalid e ht
  have hfb := transient_is_fallback e ht
  have key : AuthorizeToken token verify (some c) nowStr =
      (match c.getResult token with
       | .ok _ => ({ allow := true, fromCache := true }, none, [CacheOp.get token])
       | .error cErr =>
         if errorsIs cErr GoError.tokenCacheMiss then
           ({ allow := false }, none, [CacheOp.get token])
         else ({ allow := false }, some cErr, [CacheOp.get token])) := by
    unfold AuthorizeToken
    rw [hv]
    simp [hni, hfb]
  refine ⟨hfb, ?_, ?_, ?_, ?_⟩
  · rw [key]
    cases hg : c.getResult token with
    | ok entry => simp
    | error cErr => cases hm : errorsIs cErr GoError.tokenCacheMiss <;> simp [hm]
  · intro entry hg
    rw [key, hg]
  · intro cErr hg hm
    rw [key, hg]
    simp [hm]
  · intro cErr hg hm
    rw [key, hg]
    simp [hm]

/-- Witness for C3 at a concrete token whose verification times out and
whose cache holds an entry: the decision is allow from cache with one
Get. -/
theorem authorize_transient_error_cache_fallback_witness :
    ((fun (_ : String) =>
        (Except.error GoError.deadlineExceeded : Except GoError VerifiedToken)) "t"
      = Except.error GoError.deadlineExceeded) ∧
    claimTransientError GoError.deadlineExceeded = true ∧
    AuthorizeToken "t" (fun _ => Except.error GoError.deadlineExceeded)
      (some { getResult := fun _ => Except.ok ⟨"bob", "api", "2024-01-01T00:00:00Z"⟩,
              putResult := fun _ _ => none }) "2024-01-02T00:00:00Z" =
      ({ allow := true, fromCache := true }, none, [CacheOp.get "t"]) :=
  ⟨rfl, by decide,
    (authorize_transient_error_cache_fallback "t" _ _ _ _ rfl (by decide)).2.2.1
      ⟨"bob", "api", "2024-01-01T00:00:00Z"⟩ rfl⟩

/-- C10: the empty token is rejected on every path: VerifyTokenInfo
returns ErrInvalidToken without any attempt, AuthorizeToken built on it
denies with no cache operation, and tokenCacheKey refuses to derive a
key for it, so no cache entry can be created or looked up under the
empty token. -/
theorem empty_token_rejected_everywhere
    (c : GitLabClientCfg) (nce : Option GoError) (api : Nat → AttemptBehavior)
    (cache : Option CacheModel) (nowStr : String) (secret : List Nat) :
    VerifyTokenInfo c nce api "" = (.error GoError.invalidToken, []) ∧
    AuthorizeToken "" (fun t => (VerifyTokenInfo c nce api t).1) cache nowStr =
      ({ allow := false }, none, []) ∧
    tokenCacheKey "" secret = .error GoError.invalidToken := by
  refine ⟨by simp [VerifyTokenInfo], ?_, by simp [tokenCacheKey]⟩
  unfold AuthorizeToken
  simp [VerifyTokenInfo, errorsIs]

/-- C4: for every nonempty token and nonempty secret, the pair handed to
the KV store by Put has as key exactly the hex encoding of the
HMAC-SHA256 of the token under the secret, and as value the JSON record
of exactly the fields username, scopes and last_verified_at of the
entry; the value is the same for every token, so the plaintext token
reaches the store only through the one-way HMAC derivation of the key. -/
theorem put_stores_hmac_key_and_tokenless_value
    (secret : List Nat) (token : String) (entry : TokenCacheEntry)
    (h1 : token ≠ "") (h2 : secret ≠ []) :
    jetStreamPutStored secret token entry =
      .ok (hexEncode (hmacSha256 secret (strBytes token)),
           marshalTokenCacheEntry entry) ∧
    (∀ token2 : String, token2 ≠ "" →
      jetStreamPutStored secret token2 entry =
        .ok (hexEncode (hmacSha256 secret (strBytes token2)),
             marshalTokenCacheEntry entry)) := by
  constructor
  · simp [jetStreamPutStored, tokenCacheKey, h1, h2]
  · intro token2 h3
    simp [jetStreamPutStored, tokenCacheKey, h3, h2]

/-- Witness for C4 at a concrete token, secret and entry. -/
theorem put_stores_hmac_key_and_tokenless_value_witness :
    ("tok" : String) ≠ "" ∧ ([1, 2, 3] : List Nat) ≠ [] ∧
    jetStreamPutStored [1, 2, 3] "tok" ⟨"bob", "api", "2024-01-01T00:00:00Z"⟩ =
      .ok (hexEncode (hmacSha256 [1, 2, 3] (strBytes "tok")),
           marshalTokenCacheEntry ⟨"bob", "api", "2024-01-01T00:00:00Z"⟩) :=
  ⟨by decide, by decide,
    (put_stores_hmac_key_and_tokenless_value [1, 2, 3] "tok" _
      (by decide) (by decide)).1⟩

/-! ## Template engine lemmas -/

/-- When the scan finds no action opener, the text part is the whole
input. -/
theorem findOpen_none_fst :
    ∀ l : List Char, (findOpen l).2 = none → (findOpen l).1 = l
  | [] => fun _ => rfl
  | [_] => fun _ => rfl
  | c :: c2 :: rest => fun h => by
    by_cases hc : c = lbr
    · by_cases hc2 : c2 = lbr
      · simp [findOpen, hc, hc2] at h
      · have ih := findOpen_none_fst (c2 :: rest)
        simp only [findOpen, hc, hc2] at h ⊢
        simp_all
    · have ih := findOpen_none_fst (c2 :: rest)
      simp only [findOpen, hc] at h ⊢
      simp_all

/-- A string without the action opener parses to a single text node. -/
theorem parseTmpl_no_open (s : String) (h : hasActionOpen s = false) :
    parseTmpl s.data = .ok [TmplNode.text s.data] := by
  have h2 : (findOpen s.data).2 = none := by
    simpa [hasActionOpen, Option.isSome_iff_exists] using h
  have h1 := findOpen_none_fst s.data h2
  have hfo : findOpen s.data = (s.data, none) := by
    have heta := Prod.mk.eta (p := findOpen s.data)
    rw [h1, h2] at heta
    exact heta.symm
  unfold parseTmpl parseTmplF
  rw [hfo]

/-- Appending the empty string is the identity. -/
theorem str_append_empty (s : String) : s ++ "" = s := by
  cases s with
  | mk d =>
    show String.mk (d ++ []) = String.mk d
    rw [List.append_nil]

/-- Rebuilding a string from its character list is the identity. -/
theorem str_mk_data (s : String) : String.mk s.data = s := by
  cases s
  rfl

/-- C8 counterexample: expansion is not idempotent as claimed; with a
username that itself contains a template action, a second expansion of
the already-expanded pattern yields a different string. -/
theorem template_expansion_not_idempotent_cex :
    processPermissionTemplate
        (processPermissionTemplate "\x7b\x7b.Username\x7d\x7d" "x\x7b\x7b.Username\x7d\x7d")
        "x\x7b\x7b.Username\x7d\x7d" ≠
      processPermissionTemplate "\x7b\x7b.Username\x7d\x7d" "x\x7b\x7b.Username\x7d\x7d" := by
  decide

/-- C8 amended: expansion is a pure function of the pattern and the
username, hence deterministic; and whenever the expanded pattern
contains no action opener (in particular whenever the substituted
username introduces none), expanding it again with the same username
returns it unchanged. -/
theorem template_expansion_conditionally_idempotent (p u : String)
    (h : hasActionOpen (processPermissionTemplate p u) = false) :
    processPermissionTemplate (processPermissionTemplate p u) u =
      processPermissionTemplate p u := by
  generalize hq : processPermissionTemplate p u = q at h
  unfold processPermissionTemplate
  rw [parseTmpl_no_open q h]
  simp [execTmpl, Except.map, str_append_empty, str_mk_data]

/-- Witness for the amended C8 at the shape of pattern the configuration
uses and an ordinary username. -/
theorem template_expansion_conditionally_idempotent_witness :
    hasActionOpen
        (processPermissionTemplate "user.\x7b\x7b.Username\x7d\x7d.>" "alice") = false ∧
    processPermissionTemplate
        (processPermissionTemplate "user.\x7b\x7b.Username\x7d\x7d.>" "alice") "alice" =
      processPermissionTemplate "user.\x7b\x7b.Username\x7d\x7d.>" "alice" :=
  ⟨by decide,
    template_expansion_conditionally_idempotent "user.\x7b\x7b.Username\x7d\x7d.>" "alice"
      (by decide)⟩

/-- C9: on any template parse failure or execution failure,
processPermissionTemplate returns the original pattern string unchanged,
so the pattern is neither emptied nor dropped. -/
theorem template_failure_returns_original (p u : String) :
    (∀ e, parseTmpl p.data = .error e → processPermissionTemplate p u = p) ∧
    (∀ nodes e, parseTmpl p.data = .ok nodes → execTmpl nodes u = .error e →
      processPermissionTemplate p u = p) := by
  constructor
  · intro e he
    unfold processPermissionTemplate
    rw [he]
  · intro nodes e hn he
    unfold processPermissionTemplate
    rw [hn]
    simp [he]

/-- Witness for C9 at a concrete unterminated pattern and a concrete
pattern whose field is not Username: both come back unchanged. -/
theorem template_failure_returns_original_witness :
    parseTmpl ("\x7b\x7bbad" : String).data = .error "unclosed action" ∧
    processPermissionTemplate "\x7b\x7bbad" "alice" = "\x7b\x7bbad" ∧
    parseTmpl ("\x7b\x7b.Other\x7d\x7d" : String).data =
      .ok [TmplNode.text [], TmplNode.field "Other", TmplNode.text []] ∧
    execTmpl [TmplNode.text [], TmplNode.field "Other", TmplNode.text []] "alice" =
      .error "field not found: Other" ∧
    processPermissionTemplate "\x7b\x7b.Other\x7d\x7d" "alice" = "\x7b\x7b.Other\x7d\x7d" :=
  ⟨rfl,
    (template_failure_returns_original "\x7b\x7bbad" "alice").1 "unclosed action" rfl,
    rfl, rfl,
    (template_failure_returns_original "\x7b\x7b.Other\x7d\x7d" "alice").2
      [TmplNode.text [], TmplNode.field "Other", TmplNode.text []]
      "field not found: Other" rfl rfl⟩

/-- C5 counterexample: at a request whose connect username is bob while
the verifier returns the principal alice, the username substituted into
the permission templates is bob, the connect username — not the verified
username of the principal as the claim states. -/
theorem permissions_use_connect_username_cex :
    (handleAuthRequest
        { decode := fun _ => .ok ⟨"Uuser", "srv", "bob", "tok"⟩
          validate := fun _ => []
          encodeUser := fun _ => .ok "USERJWT"
          genUserKey := .ok "Utmp"
          encodeResponse := fun _ => .ok "SIGNED" }
        (fun _ => .ok ⟨"alice", []⟩) none "2024-01-01T00:00:00Z"
        { pubAllow := ["user.\x7b\x7b.Username\x7d\x7d.>"] } "aud"
        "reply" "payload").userClaims =
      some { subject := "Uuser", name := "bob", audience := "aud",
             perms := { pubAllow := ["user.bob.>"] } } ∧
    "user.bob.>" ≠ processPermissionTemplate "user.\x7b\x7b.Username\x7d\x7d.>" "alice" := by
  decide

/-- C5 amended: for every allowed request, the username substituted into
the configured permission templates (and set as the claim name) is the
connect username carried by the request, regardless of the principal the
verifier returned. -/
theorem permissions_use_connect_username
    (d : HandlerDeps) (verify : String → Except GoError VerifiedToken)
    (cache : Option CacheModel) (nowStr : String) (cfg : PermConfig)
    (aud reply payload : String) (rc : AuthRequestClaims)
    (hd : d.decode payload = .ok rc)
    (herr : (AuthorizeToken rc.connectPassword verify cache nowStr).2.1 = none)
    (hallow : (AuthorizeToken rc.connectPassword verify cache nowStr).1.allow = true) :
    (handleAuthRequest d verify cache nowStr cfg aud reply payload).userClaims =
      some { subject := rc.userNkey, name := rc.connectUsername, audience := aud,
             perms := buildPermissions cfg rc.connectUsername } := by
  unfold handleAuthRequest
  rw [hd]
  simp only [herr, hallow]
  simp only [Bool.not_true, Bool.false_eq_true, if_false]
  split
  · rfl
  · split <;> rfl

/-- Witness for the amended C5 at the input of the counterexample: the built
claims carry the connect username bob. -/
theorem permissions_use_connect_username_witness :
    ((({ decode := fun _ => .ok ⟨"Uuser", "srv", "bob", "tok"⟩
         validate := fun _ => []
         encodeUser := fun _ => .ok "USERJWT"
         genUserKey := .ok "Utmp"
         encodeResponse := fun _ => .ok "SIGNED" } : HandlerDeps).decode "payload"
      = .ok ⟨"Uuser", "srv", "bob", "tok"⟩) ∧
    (handleAuthRequest
        { decode := fun _ => .ok ⟨"Uuser", "srv", "bob", "tok"⟩
          validate := fun _ => []
          encodeUser := fun _ => .ok "USERJWT"
          genUserKey := .ok "Utmp"
          encodeResponse := fun _ => .ok "SIGNED" }
        (fun _ => .ok ⟨"alice", []⟩) none "2024-01-01T00:00:00Z"
        { pubAllow := ["user.\x7b\x7b.Username\x7d\x7d.>"] } "aud"
        "reply" "payload").userClaims =
      some { subject := "Uuser", name := "bob", audience := "aud",
             perms := buildPermissions
               { pubAllow := ["user.\x7b\x7b.Username\x7d\x7d.>"] } "bob" }) :=
  ⟨rfl,
    permissions_use_connect_username _ (fun _ => .ok ⟨"alice", []⟩) none
      "2024-01-01T00:00:00Z" _ "aud" "reply" "payload" ⟨"Uuser", "srv", "bob", "tok"⟩
      rfl (by decide) (by decide)⟩

/-- C6: when the payload cannot be decoded, the handler publishes exactly
one signed response: its claims carry the constant error string invalid
request format and the empty jwt, and are addressed to a synthesized
throwaway user key, since the key of the requester is unknown; the response
does not depend on the payload bytes at all, so the undecodable bytes
cannot leak into it. -/
theorem malformed_request_generic_denial
    (d : HandlerDeps) (verify : String → Except GoError VerifiedToken)
    (cache : Option CacheModel) (nowStr : String) (cfg : PermConfig)
    (aud reply payload : String) (e : GoError)
    (hd : d.decode payload = .error e)
    (k : String) (hk : d.genUserKey = .ok k)
    (t : String)
    (he : d.encodeResponse
        { subject := k, audience := "", errMsg := "invalid request format",
          userJwt := "" } = .ok t) :
    handleAuthRequest d verify cache nowStr cfg aud reply payload =
      { published := [{ subject := reply, data := t }], userClaims := none } := by
  unfold handleAuthRequest
  rw [hd]
  unfold respondMsg
  simp only [hk]
  simp only [String.startsWith]
  simp at he ⊢
  rw [he]

/-- Witness for C6 at a concrete undecodable payload: one response is
published carrying the generic error. -/
theorem malformed_request_generic_denial_witness :
    ((({ decode := fun _ => .error (GoError.simple "bad jwt")
         validate := fun _ => []
         encodeUser := fun _ => .ok "USERJWT"
         genUserKey := .ok "Utmp"
         encodeResponse := fun rc => .ok ("SIGNED:" ++ rc.errMsg) } : HandlerDeps).decode
        "garbage" = .error (GoError.simple "bad jwt")) ∧
    handleAuthRequest
        { decode := fun _ => .error (GoError.simple "bad jwt")
          validate := fun _ => []
          encodeUser := fun _ => .ok "USERJWT"
          genUserKey := .ok "Utmp"
          encodeResponse := fun rc => .ok ("SIGNED:" ++ rc.errMsg) }
        (fun _ => .ok ⟨"alice", []⟩) none "2024-01-01T00:00:00Z"
        { pubAllow := [] } "aud" "reply" "garbage" =
      { published := [{ subject := "reply", data := "SIGNED:invalid request format" }],
        userClaims := none }) :=
  ⟨rfl,
    malformed_request_generic_denial _ (fun _ => .ok ⟨"alice", []⟩) none
      "2024-01-01T00:00:00Z" { pubAllow := [] } "aud" "reply" "garbage"
      (GoError.simple "bad jwt") rfl "Utmp" rfl "SIGNED:invalid request format" rfl⟩

/-! ## Retry loop lemmas (VerifyTokenInfo) -/

/-- An attempt whose CurrentUser call failed with a retryable
(non-unauthorized) error. -/
def attemptRetryable (b : AttemptBehavior) : Bool :=
  match b.currentUser with
  | .error e => !isUnauthorizedError e
  | .ok _ => false

/-- An attempt whose CurrentUser call failed with an explicit
unauthorized (401) error. -/
def attemptUnauthorized (b : AttemptBehavior) : Bool :=
  match b.currentUser with
  | .error e => isUnauthorizedError e
  | .ok _ => false

/-- Shape of a retry-loop event log: attempts separated by single
sleeps, beginning and ending with an attempt. -/
def ctxSleepShape : List GLEvent → Bool
  | [GLEvent.ctx _] => true
  | GLEvent.ctx _ :: GLEvent.sleep _ :: rest => ctxSleepShape rest
  | _ => false

theorem countCtx_nil : countCtx [] = 0 := rfl

theorem countCtx_ctx_cons (t : Nat) (l : List GLEvent) :
    countCtx (GLEvent.ctx t :: l) = countCtx l + 1 := by
  simp [countCtx]

theorem countCtx_sleep_cons (d : Nat) (l : List GLEvent) :
    countCtx (GLEvent.sleep d :: l) = countCtx l := by
  simp [countCtx]

/-- Step equation: CurrentUser succeeded and the PAT call succeeded. -/
theorem verifyAttempts_step_user_ok (c : GitLabClientCfg) (api : Nat → AttemptBehavior)
    (attempt f : Nat) (userOpt : Option GitLabUser) (patOpt : Option PatInfo)
    (hcu : (api attempt).currentUser = .ok userOpt)
    (hp : (api attempt).pat = .ok patOpt) :
    verifyAttempts c api attempt (f + 1) =
      (finishUser userOpt (patScopes patOpt), [GLEvent.ctx c.timeout]) := by
  simp only [verifyAttempts, hcu, hp]

/-- Step equation: CurrentUser succeeded, the PAT call failed with an
unauthorized error. -/
theorem verifyAttempts_step_pat_unauth (c : GitLabClientCfg) (api : Nat → AttemptBehavior)
    (attempt f : Nat) (userOpt : Option GitLabUser) (patErr : GoError)
    (hcu : (api attempt).currentUser = .ok userOpt)
    (hp : (api attempt).pat = .error patErr)
    (hu : isUnauthorizedError patErr = true) :
    verifyAttempts c api attempt (f + 1) =
      (.error GoError.invalidToken, [GLEvent.ctx c.timeout]) := by
  simp only [verifyAttempts, hcu, hp]
  simp [hu]

/-- Step equation: CurrentUser succeeded, the PAT call failed
non-fatally. -/
theorem verifyAttempts_step_pat_soft (c : GitLabClientCfg) (api : Nat → AttemptBehavior)
    (attempt f : Nat) (userOpt : Option GitLabUser) (patErr : GoError)
    (hcu : (api attempt).currentUser = .ok userOpt)
    (hp : (api attempt).pat = .error patErr)
    (hu : isUnauthorizedError patErr = false) :
    verifyAttempts c api attempt (f + 1) =
      (finishUser userOpt [], [GLEvent.ctx c.timeout]) := by
  simp only [verifyAttempts, hcu, hp]
  simp [hu]

/-- Step equation: CurrentUser failed with an unauthorized error. -/
theorem verifyAttempts_step_unauth (c : GitLabClientCfg) (api : Nat → AttemptBehavior)
    (attempt f : Nat) (e : GoError)
    (hcu : (api attempt).currentUser = .error e)
    (hu : isUnauthorizedError e = true) :
    verifyAttempts c api attempt (f + 1) =
      (.error GoError.invalidToken, [GLEvent.ctx c.timeout]) := by
  simp only [verifyAttempts, hcu]
  simp [hu]

/-- Step equation: CurrentUser failed retryably on the final attempt. -/
theorem verifyAttempts_step_last (c : GitLabClientCfg) (api : Nat → AttemptBehavior)
    (attempt : Nat) (e : GoError)
    (hcu : (api attempt).currentUser = .error e)
    (hu : isUnauthorizedError e = false) :
    verifyAttempts c api attempt 1 =
      (.error (GoError.wrapped e), [GLEvent.ctx c.timeout]) := by
  simp only [verifyAttempts, hcu]
  simp [hu]

/-- Step equation: CurrentUser failed retryably with fuel remaining;
sleep and recurse. -/
theorem verifyAttempts_step_retry (c : GitLabClientCfg) (api : Nat → AttemptBehavior)
    (attempt f : Nat) (e : GoError)
    (hcu : (api attempt).currentUser = .error e)
    (hu : isUnauthorizedError e = false) :
    verifyAttempts c api attempt (f + 2) =
      ((verifyAttempts c api (attempt + 1) (f + 1)).1,
        GLEvent.ctx c.timeout :: GLEvent.sleep c.retryDelaySeconds ::
          (verifyAttempts c api (attempt + 1) (f + 1)).2) := by
  simp only [verifyAttempts, hcu]
  simp [hu]

/-- Case split driving the induction proofs: any successor-fuel call
yields one of the step equations. -/
theorem verifyAttempts_cases (c : GitLabClientCfg) (api : Nat → AttemptBehavior)
    (attempt f : Nat) :
    (verifyAttempts c api attempt (f + 1)).2 = [GLEvent.ctx c.timeout] ∨
    (∃ e, (api attempt).currentUser = .error e ∧ isUnauthorizedError e = false ∧
      f ≠ 0 ∧
      verifyAttempts c api attempt (f + 1) =
        ((verifyAttempts c api (attempt + 1) f).1,
          GLEvent.ctx c.timeout :: GLEvent.sleep c.retryDelaySeconds ::
            (verifyAttempts c api (attempt + 1) f).2)) := by
  cases hcu : (api attempt).currentUser with
  | ok userOpt =>
    cases hp : (api attempt).pat with
    | ok patOpt =>
      left
      rw [verifyAttempts_step_user_ok c api attempt f userOpt patOpt hcu hp]
    | error patErr =>
      cases hu : isUnauthorizedError patErr with
      | true =>
        left
        rw [verifyAttempts_step_pat_unauth c api attempt f userOpt patErr hcu hp hu]
      | false =>
        left
        rw [verifyAttempts_step_pat_soft c api attempt f userOpt patErr hcu hp hu]
  | error e =>
    cases hu : isUnauthorizedError e with
    | true =>
      left
      rw [verifyAttempts_step_unauth c api attempt f e hcu hu]
    | false =>
      cases hf : f with
      | zero =>
        left
        rw [verifyAttempts_step_last c api attempt e hcu hu]
      | succ f2 =>
        right
        refine ⟨e, rfl, hu, by omega, ?_⟩
        exact verifyAttempts_step_retry c api attempt f2 e hcu hu

/-- The loop makes at most fuel attempts. -/
theorem verifyAttempts_ctx_le (c : GitLabClientCfg) (api : Nat → AttemptBehavior) :
    ∀ fuel attempt, countCtx (verifyAttempts c api attempt fuel).2 ≤ fuel := by
  intro fuel
  induction fuel with
  | zero => intro attempt; simp [verifyAttempts, countCtx]
  | succ f ih =>
    intro attempt
    rcases verifyAttempts_cases c api attempt f with h | ⟨e, _, _, _, h⟩
    · rw [h]
      simp [countCtx]
    · rw [h]
      simp only [countCtx_ctx_cons, countCtx_sleep_cons]
      have := ih (attempt + 1)
      omega

/-- Every event of the loop is a fresh context with the configured
timeout or a sleep of the configured delay. -/
theorem verifyAttempts_events_fixed (c : GitLabClientCfg) (api : Nat → AttemptBehavior) :
    ∀ fuel attempt ev, ev ∈ (verifyAttempts c api attempt fuel).2 →
      ev = GLEvent.ctx c.timeout ∨ ev = GLEvent.sleep c.retryDelaySeconds := by
  intro fuel
  induction fuel with
  | zero => intro attempt ev h; simp [verifyAttempts] at h
  | succ f ih =>
    intro attempt ev h
    rcases verifyAttempts_cases c api attempt f with hc | ⟨e, _, _, _, hc⟩
    · rw [hc] at h
      simp at h
      simp [h]
    · rw [hc] at h
      simp only [List.mem_cons] at h
      rcases h with h | h | h
      · left; exact h
      · right; exact h
      · exact ih (attempt + 1) ev h

/-- With at least one attempt of fuel, the event log has the
attempt-sleep-attempt shape. -/
theorem verifyAttempts_shape (c : GitLabClientCfg) (api : Nat → AttemptBehavior) :
    ∀ fuel attempt, 1 ≤ fuel → ctxSleepShape (verifyAttempts c api attempt fuel).2 = true := by
  intro fuel
  induction fuel with
  | zero => intro attempt h; omega
  | succ f ih =>
    intro attempt _
    rcases verifyAttempts_cases c api attempt f with hc | ⟨e, _, _, hf, hc⟩
    · rw [hc]
      rfl
    · rw [hc]
      show ctxSleepShape (verifyAttempts c api (attempt + 1) f).2 = true
      exact ih (attempt + 1) (by omega)

/-- When the first k attempts starting at a given attempt index fail
retryably and attempt k is explicitly unauthorized, the loop stops at
attempt k with ErrInvalidToken, having made exactly k + 1 attempts. -/
theorem verifyAttempts_unauthorized_stops (c : GitLabClientCfg) (api : Nat → AttemptBehavior) :
    ∀ k attempt fuel, k < fuel →
      (∀ j, j < k → attemptRetryable (api (attempt + j)) = true) →
      attemptUnauthorized (api (attempt + k)) = true →
      (verifyAttempts c api attempt fuel).1 = .error GoError.invalidToken ∧
      countCtx (verifyAttempts c api attempt fuel).2 = k + 1 := by
  intro k
  induction k with
  | zero =>
    intro attempt fuel hlt _ hu
    obtain ⟨f, rfl⟩ : ∃ f, fuel = f + 1 := ⟨fuel - 1, by omega⟩
    rw [Nat.add_zero] at hu
    unfold attemptUnauthorized at hu
    cases hcu : (api attempt).currentUser with
    | ok userOpt => rw [hcu] at hu; simp at hu
    | error e =>
      rw [hcu] at hu
      rw [verifyAttempts_step_unauth c api attempt f e hcu hu]
      simp [countCtx]
  | succ kk ih =>
    intro attempt fuel hlt hr hu
    obtain ⟨f, rfl⟩ : ∃ f, fuel = f + 1 := ⟨fuel - 1, by omega⟩
    have hr0 : attemptRetryable (api attempt) = true := by
      have := hr 0 (by omega)
      simpa using this
    unfold attemptRetryable at hr0
    cases hcu : (api attempt).currentUser with
    | ok userOpt => rw [hcu] at hr0; simp at hr0
    | error e =>
      rw [hcu] at hr0
      simp only [Bool.not_eq_true'] at hr0
      obtain ⟨f2, rfl⟩ : ∃ f2, f = f2 + 1 := ⟨f - 1, by omega⟩
      rw [verifyAttempts_step_retry c api attempt f2 e hcu hr0]
      have ihr : ∀ j, j < kk → attemptRetryable (api (attempt + 1 + j)) = true := by
        intro j hj
        have := hr (j + 1) (by omega)
        have hA : attempt + (j + 1) = attempt + 1 + j := by omega
        rw [hA] at this
        exact this
      have ihu : attemptUnauthorized (api (attempt + 1 + kk)) = true := by
        have hA : attempt + (kk + 1) = attempt + 1 + kk := by omega
        rw [hA] at hu
        exact hu
      have hrec := ih (attempt + 1) (f2 + 1) (by omega) ihr ihu
      refine ⟨hrec.1, ?_⟩
      simp only [countCtx_ctx_cons, countCtx_sleep_cons]
      omega

/-- C7: with a nonempty token and a successfully constructed client,
VerifyTokenInfo makes at most retries + 1 attempts; every recorded event
is a fresh per-attempt context with the configured timeout or a sleep of
the configured fixed delay; the events alternate attempt, sleep,
attempt, ending on an attempt, so consecutive attempts are separated by
exactly one fixed delay; and if the first k attempts fail retryably and
attempt k returns an explicit unauthorized (401) result, the call stops
there with ErrInvalidToken after exactly k + 1 attempts. -/
theorem verify_token_info_retry_discipline
    (c : GitLabClientCfg) (api : Nat → AttemptBehavior) (token : String)
    (hne : token ≠ "") :
    countCtx (VerifyTokenInfo c none api token).2 ≤ c.retries + 1 ∧
    (∀ ev ∈ (VerifyTokenInfo c none api token).2,
      ev = GLEvent.ctx c.timeout ∨ ev = GLEvent.sleep c.retryDelaySeconds) ∧
    ctxSleepShape (VerifyTokenInfo c none api token).2 = true ∧
    (∀ k, k ≤ c.retries →
      (∀ j, j < k → attemptRetryable (api j) = true) →
      attemptUnauthorized (api k) = true →
      (VerifyTokenInfo c none api token).1 = .error GoError.invalidToken ∧
      countCtx (VerifyTokenInfo c none api token).2 = k + 1) := by
  have hV : VerifyTokenInfo c none api token = verifyAttempts c api 0 (c.retries + 1) := by
    simp [VerifyTokenInfo, hne]
  rw [hV]
  refine ⟨verifyAttempts_ctx_le c api _ 0,
    fun ev h => verifyAttempts_events_fixed c api _ 0 ev h,
    verifyAttempts_shape c api _ 0 (by omega), ?_⟩
  intro k hk hr hu
  have := verifyAttempts_unauthorized_stops c api k 0 (c.retries + 1) (by omega)
    (fun j hj => by simpa using hr j hj) (by simpa using hu)
  exact this

/-- Witness for C7: two retries configured, the first attempt fails with
a timeout, the second returns 401; the call stops after the second
attempt with ErrInvalidToken. -/
theorem verify_token_info_retry_discipline_witness :
    ("tok" : String) ≠ "" ∧
    (1 : Nat) ≤ 2 ∧
    (VerifyTokenInfo ⟨5, 2, 1⟩ none
        (fun n => if n = 0 then ⟨.error (GoError.netErr true false), .ok none⟩
                  else ⟨.error (GoError.gitlabErr (some 401)), .ok none⟩) "tok").1 =
      .error GoError.invalidToken ∧
    countCtx (VerifyTokenInfo ⟨5, 2, 1⟩ none
        (fun n => if n = 0 then ⟨.error (GoError.netErr true false), .ok none⟩
                  else ⟨.error (GoError.gitlabErr (some 401)), .ok none⟩) "tok").2 = 2 := by
  refine ⟨by decide, by decide, ?_⟩
  have := (verify_token_info_retry_discipline ⟨5, 2, 1⟩
      (fun n => if n = 0 then ⟨.error (GoError.netErr true false), .ok none⟩
                else ⟨.error (GoError.gitlabErr (some 401)), .ok none⟩) "tok"
      (by decide)).2.2.2 1 (by decide)
      (fun j hj => by
        have hj0 : j = 0 := by omega
        rw [hj0]
        decide)
      (by decide)
  exact this

end GcsAntal
